import Mathlib

/-!
Verification of the CanteenGo order-lifecycle core: a shallow embedding of
the SQL schema, row-level-security policies, pickup-code generator and the
client-side order/cart operations, together with theorems about the claimed
properties (pickup-code uniqueness, status transitions, authorization,
order totals, cart invariants).

Sources embedded here:
- supabase/migrations (orders table, orders_status_check, generate_pickup_code,
  set_pickup_code trigger, RLS policies, has_role);
- src/pages/CanteenMenu.tsx (cart operations, totalAmount, placeOrder);
- src/pages/VendorDashboard.tsx (markOrderReady, markOrderCompleted).

Modelling conventions: uuids and timestamps are Nat; DECIMAL(10,2) money is
Rat (exact arithmetic); TEXT is String; the SQL status column is a String
constrained by the orders_status_check predicate; nullable columns are
Option.  RANDOM() draws of FLOOR(RANDOM()*1000000) are modelled by an
explicit oracle list of values in Fin 1000000 consumed one per loop
iteration, so the unbounded retry loop of generate_pickup_code becomes a
function of the finite draw budget that returns none when the loop has not
exited within that budget.  A PostgreSQL UPDATE under a row-level-security
USING clause updates exactly the visible matching rows and reports success
with the affected row count (never an authorization error); that semantics
is embedded directly in updateOrderStatus.
-/

set_option maxRecDepth 8192

namespace CanteenGo

/-- Row of the canteens table (migration part_001). -/
structure Canteen where
  id : Nat
  name : String
  location : String
  vendor_id : Nat
  image_url : Option String
  created_at : Nat
deriving DecidableEq

/-- Row of the orders table (migration part_001 plus the pickup_code column
added by migration 20251117090143). -/
structure Order where
  id : Nat
  student_id : Nat
  canteen_id : Nat
  status : String
  total_amount : Rat
  pickup_code : Option String
  created_at : Nat
deriving DecidableEq

/-- Row of the order_items table (id column omitted; it is generated by the
database and read by no claim). -/
structure OrderItem where
  order_id : Nat
  menu_item_id : Nat
  quantity : Nat
  price : Rat
deriving DecidableEq

/-- Row of the user_roles table; role is the app_role enum as TEXT. -/
structure UserRole where
  user_id : Nat
  role : String
deriving DecidableEq

/-- CHECK constraint orders_status_check after the second migration:
status IN ('pending', 'ready', 'completed'). -/
def orders_status_check (s : String) : Bool :=
  s == "pending" || s == "ready" || s == "completed"

/-- The condition status IN ('pending', 'ready') used by
generate_pickup_code to scope uniqueness to active orders. -/
def isActiveStatus (s : String) : Bool :=
  s == "pending" || s == "ready"

/-- PostgreSQL LPAD: pad s on the left with pad up to length len,
truncating on the right when s is already longer. -/
def lpad (s : String) (len : Nat) (pad : Char) : String :=
  if len ≤ s.length then String.mk (s.data.take len)
  else String.mk (List.replicate (len - s.length) pad ++ s.data)

/-- The expression LPAD(FLOOR(RANDOM() * 1000000)::TEXT, 6, '0') applied to
one oracle draw d (RANDOM() lies in [0,1), so the floored value is in
[0, 999999]). -/
def draw_code (d : Fin 1000000) : String :=
  lpad (Nat.repr d.val) 6 '0'

/-- The SELECT EXISTS subquery of generate_pickup_code: some order row holds
this pickup code while its status is pending or ready. -/
def pickupCodeExists (os : List Order) (code : String) : Bool :=
  os.any fun o => o.pickup_code == some code && isActiveStatus o.status

/-- Function generate_pickup_code (migrations 20251117090143/20251117090218):
loop drawing a random 6-digit code until it is not held by any active order.
The draw oracle is consumed one element per iteration; none means the loop
has not exited within the supplied draws. -/
def generate_pickup_code (os : List Order) : List (Fin 1000000) → Option String
  | [] => none
  | d :: ds =>
    let code := draw_code d
    if pickupCodeExists os code then generate_pickup_code os ds
    else some code

/-- Function has_role (migration part_001): EXISTS row in user_roles with
this user and role. -/
def has_role (roles : List UserRole) (uid : Nat) (r : String) : Bool :=
  roles.any fun ur => ur.user_id == uid && ur.role == r

/-- USING clause of the policy "Vendors can update orders for own canteens":
EXISTS a canteen with id = the order's canteen_id and vendor_id = auth.uid(). -/
def vendorOwnsCanteen (cs : List Canteen) (uid : Nat) (cid : Nat) : Bool :=
  cs.any fun c => c.id == cid && c.vendor_id == uid

/-- WITH CHECK clause of the policy "Students can create orders":
auth.uid() = student_id AND has_role(auth.uid(), 'student'). -/
def studentsCanCreateOrder (roles : List UserRole) (uid : Nat) (o : Order) : Bool :=
  uid == o.student_id && has_role roles uid "student"

/-- Errors the embedded database operations can raise.  A row filtered out
by a USING clause is not an error (PostgreSQL silently skips it); only a
violated WITH CHECK insert policy or CHECK constraint raises. -/
inductive DBError where
  | rlsViolation : DBError
  | checkViolation : DBError
deriving DecidableEq

/-- Effect of UPDATE orders SET status = s WHERE id = oid on a single row
under the vendor-update USING policy: rows not matching the id, and rows the
acting user may not update, are left untouched. -/
def applyStatusRow (cs : List Canteen) (uid oid : Nat) (s : String) (o : Order) : Order :=
  if o.id = oid ∧ vendorOwnsCanteen cs uid o.canteen_id = true then { o with status := s }
  else o

/-- The supabase call .from("orders").update({ status: s }).eq("id", oid)
issued as user uid: updates the status column of every visible matching row,
returning the new table and the affected row count; raises only when an
actually-updated row would violate orders_status_check. -/
def updateOrderStatus (cs : List Canteen) (uid oid : Nat) (s : String) (os : List Order) :
    Except DBError (List Order × Nat) :=
  let touched := os.filter fun o => decide (o.id = oid) && vendorOwnsCanteen cs uid o.canteen_id
  if touched.length ≠ 0 ∧ orders_status_check s = false then .error .checkViolation
  else .ok (os.map (applyStatusRow cs uid oid s), touched.length)

/-- markOrderReady from VendorDashboard.tsx: set status to "ready" by id. -/
def markOrderReady (cs : List Canteen) (uid oid : Nat) (os : List Order) :
    Except DBError (List Order × Nat) :=
  updateOrderStatus cs uid oid "ready" os

/-- markOrderCompleted from VendorDashboard.tsx: set status to "completed" by id. -/
def markOrderCompleted (cs : List Canteen) (uid oid : Nat) (os : List Order) :
    Except DBError (List Order × Nat) :=
  updateOrderStatus cs uid oid "completed" os

/-- INSERT into orders as user uid: the BEFORE INSERT trigger set_pickup_code
overwrites pickup_code with generate_pickup_code(), then the insert RLS
policy and the status CHECK constraint are enforced.  none means the
code-generating loop did not exit within the supplied draws. -/
def insertOrder (roles : List UserRole) (uid : Nat) (row : Order)
    (draws : List (Fin 1000000)) (os : List Order) :
    Option (Except DBError (List Order)) :=
  match generate_pickup_code os draws with
  | none => none
  | some code =>
    let row2 := { row with pickup_code := some code }
    if studentsCanCreateOrder roles uid row2 = false then some (.error .rlsViolation)
    else if orders_status_check row2.status = false then some (.error .checkViolation)
    else some (.ok (os ++ [row2]))

/-- MenuItem as selected in CanteenMenu.tsx. -/
structure MenuItem where
  id : Nat
  name : String
  description : Option String
  price : Rat
  is_available : Bool
deriving DecidableEq

/-- CartItem = MenuItem & (quantity : number) from CanteenMenu.tsx. -/
structure CartItem where
  id : Nat
  name : String
  description : Option String
  price : Rat
  is_available : Bool
  quantity : Nat
deriving DecidableEq

/-- The spread expression ...item, quantity: q building a CartItem. -/
def toCartItem (m : MenuItem) (q : Nat) : CartItem :=
  ⟨m.id, m.name, m.description, m.price, m.is_available, q⟩

/-- addToCart from CanteenMenu.tsx: increment the quantity of an existing
entry with the same id, otherwise append the item with quantity 1. -/
def addToCart (item : MenuItem) (cart : List CartItem) : List CartItem :=
  match cart.find? fun i => i.id == item.id with
  | some _ => cart.map fun i =>
      if i.id = item.id then { i with quantity := i.quantity + 1 } else i
  | none => cart ++ [toCartItem item 1]

/-- removeFromCart from CanteenMenu.tsx: decrement the quantity of the entry
when it is above 1, otherwise drop every entry with that id. -/
def removeFromCart (itemId : Nat) (cart : List CartItem) : List CartItem :=
  match cart.find? fun i => i.id == itemId with
  | some existing =>
    if existing.quantity > 1 then
      cart.map fun i =>
        if i.id = itemId then { i with quantity := i.quantity - 1 } else i
    else cart.filter fun i => !(i.id == itemId)
  | none => cart.filter fun i => !(i.id == itemId)

/-- clearItemFromCart from CanteenMenu.tsx. -/
def clearItemFromCart (itemId : Nat) (cart : List CartItem) : List CartItem :=
  cart.filter fun i => !(i.id == itemId)

/-- totalAmount from CanteenMenu.tsx: cart.reduce((sum, item) =>
sum + item.price * item.quantity, 0). -/
def totalAmount (cart : List CartItem) : Rat :=
  cart.foldl (fun sum i => sum + i.price * (i.quantity : Rat)) 0

/-- placeOrder from CanteenMenu.tsx: bail out on a missing user or an empty
cart, insert the order row with status "pending" and total_amount =
totalAmount cart (the trigger assigns the pickup code), then insert one
order_items row per cart entry. -/
def placeOrder (user : Option Nat) (canteenId : Nat) (cart : List CartItem)
    (roles : List UserRole) (newOrderId stamp : Nat) (draws : List (Fin 1000000))
    (os : List Order) : Option (Except DBError (List Order × List OrderItem)) :=
  match user with
  | none => none
  | some uid =>
    if cart.isEmpty then none
    else
      match insertOrder roles uid ⟨newOrderId, uid, canteenId, "pending", totalAmount cart, none, stamp⟩ draws os with
      | none => none
      | some (.error e) => some (.error e)
      | some (.ok os2) => some (.ok (os2, cart.map fun i => ⟨newOrderId, i.id, i.quantity, i.price⟩))

/-- Pickup codes currently held by orders whose status is pending or ready
(the set the generator guards against). -/
def activePickupCodes (os : List Order) : List String :=
  os.filterMap fun o => if isActiveStatus o.status = true then o.pickup_code else none

/-- One cart interaction in CanteenMenu.tsx. -/
inductive CartOp where
  | add : MenuItem → CartOp
  | remove : Nat → CartOp
  | clear : Nat → CartOp
deriving DecidableEq

/-- Dispatch of one cart interaction to its handler. -/
def applyCartOp (cart : List CartItem) : CartOp → List CartItem
  | .add item => addToCart item cart
  | .remove itemId => removeFromCart itemId cart
  | .clear itemId => clearItemFromCart itemId cart

/-- State of the cart after a sequence of interactions on an empty cart. -/
def runCartOps (ops : List CartOp) : List CartItem :=
  ops.foldl applyCartOp []

/-- Cart well-formedness: at most one entry per menu-item id, and every
quantity positive. -/
def CartInv (cart : List CartItem) : Prop :=
  (cart.map fun i => i.id).Nodup ∧ ∀ i ∈ cart, 0 < i.quantity

/-- The order store states reachable through the operations the application
performs: order creation (placeOrder insert through the pickup-code trigger)
and vendor status updates. -/
inductive Reachable (cs : List Canteen) (roles : List UserRole) : List Order → Prop where
  | empty : Reachable cs roles []
  | create (os : List Order) (uid : Nat) (row : Order) (draws : List (Fin 1000000))
      (os2 : List Order) : Reachable cs roles os →
      insertOrder roles uid row draws os = some (.ok os2) → Reachable cs roles os2
  | update (os : List Order) (uid oid : Nat) (s : String) (os2 : List Order) (n : Nat) :
      Reachable cs roles os →
      updateOrderStatus cs uid oid s os = .ok (os2, n) → Reachable cs roles os2

/-- Reachability restricted to status updates that never move an inactive
(completed) row back into the active set, which is how the vendor dashboard
drives the store when its order lists are fresh. -/
inductive ForwardReachable (cs : List Canteen) (roles : List UserRole) : List Order → Prop where
  | empty : ForwardReachable cs roles []
  | create (os : List Order) (uid : Nat) (row : Order) (draws : List (Fin 1000000))
      (os2 : List Order) : ForwardReachable cs roles os →
      insertOrder roles uid row draws os = some (.ok os2) → ForwardReachable cs roles os2
  | update (os : List Order) (uid oid : Nat) (s : String) (os2 : List Order) (n : Nat) :
      ForwardReachable cs roles os →
      (∀ o ∈ os, o.id = oid → vendorOwnsCanteen cs uid o.canteen_id = true →
        isActiveStatus s = true → isActiveStatus o.status = true) →
      updateOrderStatus cs uid oid s os = .ok (os2, n) → ForwardReachable cs roles os2

/-! Helper lemmas about 6-digit codes. -/

lemma string_mk_length (l : List Char) : (String.mk l).length = l.length := rfl

lemma lpad_length (s : String) (n : Nat) (pad : Char) : (lpad s n pad).length = n := by
  unfold lpad
  split
  · rename_i h
    rw [string_mk_length, List.length_take]
    have hs : s.data.length = s.length := rfl
    omega
  · rename_i h
    rw [string_mk_length, List.length_append, List.length_replicate]
    have hs : s.data.length = s.length := rfl
    omega

lemma lpad_mem (s : String) (n : Nat) (pad : Char) (c : Char) :
    c ∈ (lpad s n pad).data → c = pad ∨ c ∈ s.data := by
  unfold lpad
  split
  · intro h
    exact .inr (List.mem_of_mem_take h)
  · intro h
    rcases List.mem_append.mp h with h2 | h2
    · exact .inl (List.eq_of_mem_replicate h2)
    · exact .inr h2

lemma digitChar_isDigit (d : Nat) (h : d < 10) : (Nat.digitChar d).isDigit = true := by
  interval_cases d <;> decide

lemma toDigitsCore_mem (f : Nat) : ∀ (n : Nat) (acc : List Char) (c : Char),
    c ∈ Nat.toDigitsCore 10 f n acc → c ∈ acc ∨ c.isDigit = true := by
  induction f with
  | zero =>
    intro n acc c h
    exact .inl h
  | succ f ih =>
    intro n acc c h
    unfold Nat.toDigitsCore at h
    by_cases hd : n / 10 = 0
    · simp only [hd, if_pos] at h
      rcases List.mem_cons.mp h with h2 | h2
      · exact .inr (h2 ▸ digitChar_isDigit _ (Nat.mod_lt _ (by omega)))
      · exact .inl h2
    · simp only [hd, if_neg, if_false] at h
      rcases ih _ _ _ h with h2 | h2
      · rcases List.mem_cons.mp h2 with h3 | h3
        · exact .inr (h3 ▸ digitChar_isDigit _ (Nat.mod_lt _ (by omega)))
        · exact .inl h3
      · exact .inr h2

lemma repr_isDigit (n : Nat) (c : Char) : c ∈ (Nat.repr n).data → c.isDigit = true := by
  intro h
  have h2 : c ∈ Nat.toDigitsCore 10 (n + 1) n [] := h
  rcases toDigitsCore_mem _ _ _ _ h2 with h3 | h3
  · cases h3
  · exact h3

lemma draw_code_length (d : Fin 1000000) : (draw_code d).length = 6 :=
  lpad_length _ _ _

lemma draw_code_isDigit (d : Fin 1000000) (c : Char) :
    c ∈ (draw_code d).data → c.isDigit = true := by
  intro h
  rcases lpad_mem _ _ _ _ h with h2 | h2
  · subst h2; decide
  · exact repr_isDigit _ _ h2

/-! Helper lemmas about the generator. -/

lemma generate_pickup_code_spec (os : List Order) (draws : List (Fin 1000000))
    (code : String) (h : generate_pickup_code os draws = some code) :
    pickupCodeExists os code = false ∧ ∃ d : Fin 1000000, code = draw_code d := by
  induction draws with
  | nil => cases h
  | cons d ds ih =>
    unfold generate_pickup_code at h
    by_cases hx : pickupCodeExists os (draw_code d)
    · rw [if_pos hx] at h
      exact ih h
    · rw [if_neg hx] at h
      cases h
      exact ⟨Bool.eq_false_iff.mpr hx, d, rfl⟩

lemma mem_activePickupCodes (os : List Order) (code : String) :
    code ∈ activePickupCodes os ↔
      ∃ o ∈ os, o.pickup_code = some code ∧ isActiveStatus o.status = true := by
  unfold activePickupCodes
  rw [List.mem_filterMap]
  constructor
  · rintro ⟨o, ho, hf⟩
    by_cases ha : isActiveStatus o.status = true
    · rw [if_pos ha] at hf
      exact ⟨o, ho, hf, ha⟩
    · rw [if_neg ha] at hf
      cases hf
  · rintro ⟨o, ho, hc, ha⟩
    exact ⟨o, ho, by rw [if_pos ha]; exact hc⟩

lemma pickupCodeExists_false_iff (os : List Order) (code : String) :
    pickupCodeExists os code = false ↔ code ∉ activePickupCodes os := by
  unfold pickupCodeExists
  constructor
  · intro h hmem
    rcases (mem_activePickupCodes os code).mp hmem with ⟨o, ho, hc, ha⟩
    have h2 : ¬ (os.any fun o => o.pickup_code == some code && isActiveStatus o.status) = true :=
      by rw [h]; decide
    apply h2
    rw [List.any_eq_true]
    exact ⟨o, ho, by rw [hc, ha]; simp⟩
  · intro h
    rw [Bool.eq_false_iff]
    intro h2
    rw [List.any_eq_true] at h2
    rcases h2 with ⟨o, ho, hb⟩
    rw [Bool.and_eq_true, beq_iff_eq] at hb
    exact h ((mem_activePickupCodes os code).mpr ⟨o, ho, hb.1, hb.2⟩)

/-! Helper lemmas about the status-update and insert operations. -/

lemma updateOrderStatus_ok (cs : List Canteen) (uid oid : Nat) (s : String)
    (os os2 : List Order) (n : Nat)
    (h : updateOrderStatus cs uid oid s os = .ok (os2, n)) :
    os2 = os.map (applyStatusRow cs uid oid s) := by
  unfold updateOrderStatus at h
  dsimp only at h
  split at h
  · cases h
  · injection h with h2
    cases h2
    rfl

lemma updateOrderStatus_eq_ok (cs : List Canteen) (uid oid : Nat) (s : String)
    (os : List Order) (h : orders_status_check s = true) :
    updateOrderStatus cs uid oid s os =
      .ok (os.map (applyStatusRow cs uid oid s),
        (os.filter fun o => decide (o.id = oid) && vendorOwnsCanteen cs uid o.canteen_id).length) := by
  unfold updateOrderStatus
  rw [if_neg]
  rintro ⟨-, hfalse⟩
  rw [h] at hfalse
  cases hfalse

lemma applyStatusRow_frame (cs : List Canteen) (uid oid : Nat) (s : String) (o : Order) :
    (applyStatusRow cs uid oid s o).id = o.id ∧
    (applyStatusRow cs uid oid s o).student_id = o.student_id ∧
    (applyStatusRow cs uid oid s o).canteen_id = o.canteen_id ∧
    (applyStatusRow cs uid oid s o).total_amount = o.total_amount ∧
    (applyStatusRow cs uid oid s o).pickup_code = o.pickup_code ∧
    (applyStatusRow cs uid oid s o).created_at = o.created_at := by
  unfold applyStatusRow
  split <;> exact ⟨rfl, rfl, rfl, rfl, rfl, rfl⟩

lemma applyStatusRow_pos (cs : List Canteen) (uid oid : Nat) (s : String) (o : Order)
    (h : o.id = oid ∧ vendorOwnsCanteen cs uid o.canteen_id = true) :
    applyStatusRow cs uid oid s o = { o with status := s } := by
  unfold applyStatusRow
  rw [if_pos h]

lemma applyStatusRow_neg (cs : List Canteen) (uid oid : Nat) (s : String) (o : Order)
    (h : ¬ (o.id = oid ∧ vendorOwnsCanteen cs uid o.canteen_id = true)) :
    applyStatusRow cs uid oid s o = o := by
  unfold applyStatusRow
  rw [if_neg h]

lemma status_update_self (o : Order) (s : String) (h : o.status = s) :
    ({ o with status := s } : Order) = o := by
  cases o
  cases h
  rfl

lemma bool_ne_false (b : Bool) (h : ¬ b = false) : b = true := by
  cases b
  · exact absurd rfl h
  · rfl

lemma insertOrder_ok (roles : List UserRole) (uid : Nat) (row : Order)
    (draws : List (Fin 1000000)) (os os2 : List Order)
    (h : insertOrder roles uid row draws os = some (.ok os2)) :
    ∃ code, generate_pickup_code os draws = some code ∧
      os2 = os ++ [{ row with pickup_code := some code }] ∧
      studentsCanCreateOrder roles uid { row with pickup_code := some code } = true ∧
      orders_status_check row.status = true := by
  unfold insertOrder at h
  cases hg : generate_pickup_code os draws with
  | none => rw [hg] at h; cases h
  | some code =>
    rw [hg] at h
    dsimp only at h
    by_cases h1 : studentsCanCreateOrder roles uid { row with pickup_code := some code } = false
    · rw [if_pos h1] at h; cases h
    · rw [if_neg h1] at h
      by_cases h2 : orders_status_check row.status = false
      · rw [if_pos h2] at h; cases h
      · rw [if_neg h2] at h
        injection h with h3
        injection h3 with h4
        exact ⟨code, rfl, h4.symm, bool_ne_false _ h1, bool_ne_false _ h2⟩

/-! Preservation of pickup-code uniqueness among active orders. -/

lemma activePickupCodes_append (os1 os2 : List Order) :
    activePickupCodes (os1 ++ os2) = activePickupCodes os1 ++ activePickupCodes os2 :=
  List.filterMap_append os1 os2 _

lemma codes_nodup_insert (roles : List UserRole) (uid : Nat) (row : Order)
    (draws : List (Fin 1000000)) (os os2 : List Order)
    (h : insertOrder roles uid row draws os = some (.ok os2))
    (hinv : (activePickupCodes os).Nodup) : (activePickupCodes os2).Nodup := by
  rcases insertOrder_ok roles uid row draws os os2 h with ⟨code, hg, heq, -, -⟩
  subst heq
  rw [activePickupCodes_append]
  have hfresh : code ∉ activePickupCodes os :=
    (pickupCodeExists_false_iff os code).mp (generate_pickup_code_spec os draws code hg).1
  by_cases ha : isActiveStatus row.status = true
  · have hone : activePickupCodes [{ row with pickup_code := some code }] = [code] := by
      unfold activePickupCodes
      rw [List.filterMap_cons, List.filterMap_nil]
      have : isActiveStatus ({ row with pickup_code := some code } : Order).status = true := ha
      rw [if_pos this]
    rw [hone]
    exact List.Nodup.append hinv (List.nodup_singleton code)
      ((List.disjoint_singleton).mpr hfresh)
  · have hnil : activePickupCodes [{ row with pickup_code := some code }] = [] := by
      unfold activePickupCodes
      rw [List.filterMap_cons, List.filterMap_nil]
      have : ¬ isActiveStatus ({ row with pickup_code := some code } : Order).status = true := ha
      rw [if_neg this]
    rw [hnil, List.append_nil]
    exact hinv

lemma filterMap_map_sublist {α β : Type} (g : α → α) (f : α → Option β) (l : List α)
    (h : ∀ a ∈ l, f (g a) = f a ∨ f (g a) = none) :
    ((l.map g).filterMap f).Sublist (l.filterMap f) := by
  induction l with
  | nil => simp
  | cons a l ih =>
    rw [List.map_cons, List.filterMap_cons, List.filterMap_cons]
    have hrest := ih fun x hx => h x (List.mem_cons_of_mem a hx)
    rcases h a (List.mem_cons_self a l) with h1 | h1
    · rw [h1]
      cases hfa : f a
      · exact hrest
      · exact List.Sublist.cons₂ _ hrest
    · rw [h1]
      cases hfa : f a
      · exact hrest
      · exact List.Sublist.cons _ hrest

lemma codes_sublist_update (cs : List Canteen) (uid oid : Nat) (s : String) (os : List Order)
    (hguard : ∀ o ∈ os, o.id = oid → vendorOwnsCanteen cs uid o.canteen_id = true →
      isActiveStatus s = true → isActiveStatus o.status = true) :
    (activePickupCodes (os.map (applyStatusRow cs uid oid s))).Sublist (activePickupCodes os) := by
  unfold activePickupCodes
  apply filterMap_map_sublist
  intro o ho
  by_cases hm : o.id = oid ∧ vendorOwnsCanteen cs uid o.canteen_id = true
  · rw [applyStatusRow_pos cs uid oid s o hm]
    by_cases hs : isActiveStatus s = true
    · left
      have ho2 : isActiveStatus o.status = true := hguard o ho hm.1 hm.2 hs
      have hs2 : isActiveStatus ({ o with status := s } : Order).status = true := hs
      rw [if_pos hs2, if_pos ho2]
    · right
      have hs2 : ¬ isActiveStatus ({ o with status := s } : Order).status = true := hs
      rw [if_neg hs2]
  · rw [applyStatusRow_neg cs uid oid s o hm]
    left
    rfl

lemma codes_nodup_update (cs : List Canteen) (uid oid : Nat) (s : String)
    (os os2 : List Order) (n : Nat)
    (h : updateOrderStatus cs uid oid s os = .ok (os2, n))
    (hguard : ∀ o ∈ os, o.id = oid → vendorOwnsCanteen cs uid o.canteen_id = true →
      isActiveStatus s = true → isActiveStatus o.status = true)
    (hinv : (activePickupCodes os).Nodup) : (activePickupCodes os2).Nodup := by
  rw [updateOrderStatus_ok cs uid oid s os os2 n h]
  exact List.Nodup.sublist (codes_sublist_update cs uid oid s os hguard) hinv

/-! Helper lemmas about the cart. -/

lemma foldl_add_sum (cart : List CartItem) (f : CartItem → Rat) :
    ∀ a : Rat, cart.foldl (fun sum i => sum + f i) a = a + (cart.map f).sum := by
  induction cart with
  | nil => intro a; simp
  | cons i l ih =>
    intro a
    rw [List.foldl_cons, ih, List.map_cons, List.sum_cons]
    ring

lemma totalAmount_eq (cart : List CartItem) :
    totalAmount cart = (cart.map fun i => i.price * (i.quantity : Rat)).sum := by
  unfold totalAmount
  rw [foldl_add_sum]
  exact zero_add _

lemma map_id_of_quantity_update (cart : List CartItem) (tid : Nat) (g : CartItem → Nat) :
    ((cart.map fun i => if i.id = tid then { i with quantity := g i } else i).map
      fun i => i.id) = cart.map fun i => i.id := by
  rw [List.map_map]
  apply List.map_congr_left
  intro a _
  by_cases hid : a.id = tid
  · simp only [Function.comp, if_pos hid]
  · simp only [Function.comp, if_neg hid]

lemma cartInv_filter (cart : List CartItem) (p : CartItem → Bool) (h : CartInv cart) :
    CartInv (cart.filter p) := by
  refine ⟨List.Nodup.sublist (List.Sublist.map _ (List.filter_sublist cart)) h.1, ?_⟩
  intro i hi
  exact h.2 i (List.mem_of_mem_filter hi)

lemma cartInv_addToCart (item : MenuItem) (cart : List CartItem) (h : CartInv cart) :
    CartInv (addToCart item cart) := by
  unfold addToCart
  cases hf : cart.find? fun i => i.id == item.id with
  | some e =>
    dsimp only
    constructor
    · rw [map_id_of_quantity_update]
      exact h.1
    · intro i hi
      rcases List.mem_map.mp hi with ⟨a, ha, rfl⟩
      by_cases hid : a.id = item.id
      · rw [if_pos hid]
        exact Nat.succ_pos _
      · rw [if_neg hid]
        exact h.2 a ha
  | none =>
    dsimp only
    have hfresh : item.id ∉ cart.map fun i => i.id := by
      intro hmem
      rcases List.mem_map.mp hmem with ⟨a, ha, hid⟩
      have := List.find?_eq_none.mp hf a ha
      rw [beq_iff_eq] at this
      exact this hid
    constructor
    · rw [List.map_append]
      exact List.Nodup.append h.1 (List.nodup_singleton _)
        ((List.disjoint_singleton).mpr hfresh)
    · intro i hi
      rcases List.mem_append.mp hi with hi2 | hi2
      · exact h.2 i hi2
      · rcases List.mem_singleton.mp hi2 with rfl
        exact Nat.one_pos

lemma cartInv_removeFromCart (tid : Nat) (cart : List CartItem) (h : CartInv cart) :
    CartInv (removeFromCart tid cart) := by
  unfold removeFromCart
  cases hf : cart.find? fun i => i.id == tid with
  | some e =>
    dsimp only
    by_cases hq : e.quantity > 1
    · rw [if_pos hq]
      constructor
      · rw [map_id_of_quantity_update]
        exact h.1
      · intro i hi
        rcases List.mem_map.mp hi with ⟨a, ha, rfl⟩
        by_cases hid : a.id = tid
        · rw [if_pos hid]
          have he : e ∈ cart := List.mem_of_find?_eq_some hf
          have heid : e.id = tid := by
            have := List.find?_some hf
            rwa [beq_iff_eq] at this
          have hae : a = e :=
            List.inj_on_of_nodup_map h.1 ha he (by rw [hid, heid])
          subst hae
          show 0 < a.quantity - 1
          omega
        · rw [if_neg hid]
          exact h.2 a ha
    · rw [if_neg hq]
      exact cartInv_filter cart _ h
  | none =>
    dsimp only
    exact cartInv_filter cart _ h

lemma cartInv_applyCartOp (cart : List CartItem) (op : CartOp) (h : CartInv cart) :
    CartInv (applyCartOp cart op) := by
  cases op with
  | add item => exact cartInv_addToCart item cart h
  | remove tid => exact cartInv_removeFromCart tid cart h
  | clear tid => exact cartInv_filter cart _ h

lemma cartInv_foldl (ops : List CartOp) : ∀ cart : List CartItem,
    CartInv cart → CartInv (ops.foldl applyCartOp cart) := by
  induction ops with
  | nil => intro cart h; exact h
  | cons op ops ih =>
    intro cart h
    rw [List.foldl_cons]
    exact ih _ (cartInv_applyCartOp cart op h)

lemma generate_pickup_code_cons (os : List Order) (d : Fin 1000000) (ds : List (Fin 1000000)) :
    generate_pickup_code os (d :: ds) =
      if pickupCodeExists os (draw_code d) then generate_pickup_code os ds
      else some (draw_code d) := rfl

lemma generate_some_of_mem_free (os : List Order) : ∀ draws : List (Fin 1000000),
    (∃ d ∈ draws, pickupCodeExists os (draw_code d) = false) →
    ∃ code, generate_pickup_code os draws = some code ∧ pickupCodeExists os code = false := by
  intro draws
  induction draws with
  | nil =>
    rintro ⟨d, hd, -⟩
    cases hd
  | cons d ds ih =>
    rintro ⟨m, hm, hfree⟩
    rw [generate_pickup_code_cons]
    by_cases hd : pickupCodeExists os (draw_code d) = true
    · rw [if_pos hd]
      apply ih
      rcases List.mem_cons.mp hm with rfl | hm2
      · rw [hfree] at hd
        cases hd
      · exact ⟨m, hm2, hfree⟩
    · rw [if_neg hd]
      exact ⟨draw_code d, rfl, Bool.eq_false_iff.mpr hd⟩

/-- Demo environment: one canteen owned by vendor 10, one student 20. -/
def demoCanteens : List Canteen := [⟨1, "Central", "Block A", 10, none, 0⟩]

/-- Demo role table: user 20 is a student, user 10 is a vendor. -/
def demoRoles : List UserRole := [⟨20, "student"⟩, ⟨10, "vendor"⟩]

/-- A pending demo order at canteen 1 holding pickup code 000000. -/
def demoPending : Order := ⟨1, 20, 1, "pending", 50, some "000000", 0⟩

/-- A completed demo order at canteen 1 holding pickup code 000000. -/
def demoCompleted : Order := ⟨1, 20, 1, "completed", 50, some "000000", 0⟩

/-- C4: whenever generate_pickup_code returns, the returned code is a
6-character string of decimal digits (a zero-padded value in the range
000000 to 999999), it is held by no order whose status is pending or ready,
and codes held only by completed orders are not excluded: a draw equal to a
code held only by completed orders is accepted on the first iteration, so a
completed order's code can be returned again. -/
theorem C4_generate_pickup_code_spec :
    (∀ (os : List Order) (draws : List (Fin 1000000)) (code : String),
      generate_pickup_code os draws = some code →
      code.length = 6 ∧ (∀ c ∈ code.data, c.isDigit = true) ∧
      pickupCodeExists os code = false ∧
      ∀ o ∈ os, isActiveStatus o.status = true → o.pickup_code ≠ some code) ∧
    (∀ (os : List Order) (d : Fin 1000000),
      (∀ o ∈ os, o.pickup_code = some (draw_code d) → o.status = "completed") →
      generate_pickup_code os [d] = some (draw_code d)) := by
  constructor
  · intro os draws code h
    rcases generate_pickup_code_spec os draws code h with ⟨hfresh, d, rfl⟩
    refine ⟨draw_code_length d, fun c hc => draw_code_isDigit d c hc, hfresh, ?_⟩
    intro o ho ha hcode
    exact (pickupCodeExists_false_iff os (draw_code d)).mp hfresh
      ((mem_activePickupCodes os (draw_code d)).mpr ⟨o, ho, hcode, ha⟩)
  · intro os d h
    have hfree : pickupCodeExists os (draw_code d) = false := by
      rw [Bool.eq_false_iff]
      intro ht
      unfold pickupCodeExists at ht
      rw [List.any_eq_true] at ht
      rcases ht with ⟨o, ho, hb⟩
      rw [Bool.and_eq_true, beq_iff_eq] at hb
      have hcompleted := h o ho hb.1
      have := hb.2
      rw [hcompleted] at this
      cases this
    rw [generate_pickup_code_cons, if_neg]
    rw [hfree]
    intro h2
    cases h2

/-- C4 witness: the table holds code 000000 only on a completed order, so a
draw of 0 is accepted and returns the 6-digit code 000000 again. -/
theorem C4_witness :
    (("000000" : String).length = 6 ∧ (∀ c ∈ ("000000" : String).data, c.isDigit = true) ∧
      pickupCodeExists [demoCompleted] "000000" = false ∧
      ∀ o ∈ [demoCompleted], isActiveStatus o.status = true → o.pickup_code ≠ some "000000") ∧
    generate_pickup_code [demoCompleted] [(0 : Fin 1000000)] = some "000000" :=
  ⟨C4_generate_pickup_code_spec.1 [demoCompleted] [(0 : Fin 1000000)] "000000" rfl,
   C4_generate_pickup_code_spec.2 [demoCompleted] (0 : Fin 1000000) (by decide)⟩

/-- C9: the retry loop of generate_pickup_code, with its random draws
modelled as an oracle stream, terminates with a free code as soon as the
stream offers one draw whose code is not held by an active order (with a
free code available, uniform draws produce such a draw with probability
one, which is the sense in which the loop terminates when not all codes are
held); and as long as every draw hits a code held by an active order — in
particular when all 1000000 codes are held — the loop never exits, since
the source imposes no retry bound. -/
theorem C9_retry_loop :
    (∀ (os : List Order) (draws : List (Fin 1000000)),
      (∃ m : Fin 1000000, pickupCodeExists os (draw_code m) = false) →
      (∀ m : Fin 1000000, m ∈ draws) →
      ∃ code, generate_pickup_code os draws = some code ∧
        pickupCodeExists os code = false) ∧
    (∀ (os : List Order) (draws : List (Fin 1000000)),
      (∀ d ∈ draws, pickupCodeExists os (draw_code d) = true) →
      generate_pickup_code os draws = none) := by
  constructor
  · rintro os draws ⟨m, hfree⟩ hfair
    exact generate_some_of_mem_free os draws ⟨m, hfair m, hfree⟩
  · intro os draws h
    induction draws with
    | nil => rfl
    | cons d ds ih =>
      rw [generate_pickup_code_cons, if_pos (h d (List.mem_cons_self d ds))]
      exact ih fun x hx => h x (List.mem_cons_of_mem d hx)

/-- C9 witness: over an empty table every code is free and a full draw
stream terminates; over a table holding 000000 on a pending order, a stream
drawing only 0 never exits. -/
theorem C9_witness :
    (∃ code, generate_pickup_code [] (List.finRange 1000000) = some code ∧
      pickupCodeExists [] code = false) ∧
    generate_pickup_code [demoPending] [(0 : Fin 1000000), (0 : Fin 1000000)] = none :=
  ⟨C9_retry_loop.1 [] (List.finRange 1000000) ⟨(0 : Fin 1000000), rfl⟩
      (fun m => List.mem_finRange m),
   C9_retry_loop.2 [demoPending] [(0 : Fin 1000000), (0 : Fin 1000000)] (by
      intro d hd
      rcases List.mem_cons.mp hd with rfl | hd2
      · rfl
      · rcases List.mem_singleton.mp hd2 with rfl
        rfl)⟩

/-- C1 counterexample: the claimed invariant is not preserved by every
status transition.  Trace of code operations: student 20 creates an order
(the trigger assigns code 000000); the owning vendor marks it completed;
the student creates a second order and the generator, which only checks
pending and ready orders, hands out 000000 again; the vendor then runs the
markOrderReady update against the first (completed) order — the update path
has no transition guard, so it succeeds — leaving two orders in the active
set with the same pickup code 000000. -/
theorem C1_counterexample :
    Reachable demoCanteens demoRoles
      [⟨1, 20, 1, "ready", 50, some "000000", 0⟩,
       ⟨2, 20, 1, "pending", 30, some "000000", 1⟩] ∧
    ¬ (activePickupCodes
      [⟨1, 20, 1, "ready", 50, some "000000", 0⟩,
       ⟨2, 20, 1, "pending", 30, some "000000", 1⟩]).Nodup := by
  constructor
  · apply Reachable.update
      [⟨1, 20, 1, "completed", 50, some "000000", 0⟩,
       ⟨2, 20, 1, "pending", 30, some "000000", 1⟩] 10 1 "ready"
    · apply Reachable.create
        [⟨1, 20, 1, "completed", 50, some "000000", 0⟩] 20
        ⟨2, 20, 1, "pending", 30, none, 1⟩ [(0 : Fin 1000000)]
      · apply Reachable.update [⟨1, 20, 1, "pending", 50, some "000000", 0⟩] 10 1 "completed"
        · exact Reachable.create [] 20 ⟨1, 20, 1, "pending", 50, none, 0⟩
            [(0 : Fin 1000000)] _ Reachable.empty rfl
        · rfl
      · rfl
    · rfl
  · intro h
    have h0 : activePickupCodes
        [⟨1, 20, 1, "ready", 50, some "000000", 0⟩,
         ⟨2, 20, 1, "pending", 30, some "000000", 1⟩] = ["000000", "000000"] := rfl
    rw [h0] at h
    rcases List.nodup_cons.mp h with ⟨hmem, -⟩
    exact hmem (List.mem_singleton.mpr rfl)

/-- C1 amended: the uniqueness of pickup codes among active orders is
preserved by every order creation and by every status update that does not
move an inactive (completed) row back into the active set: in every store
state reachable under that restriction, no two orders simultaneously in
the active set hold the same pickup code.  (The restriction is forced by
the counterexample: the unguarded update path can re-activate a completed
order after its code has been reused.) -/
theorem C1_active_codes_nodup (cs : List Canteen) (roles : List UserRole)
    (os : List Order) (h : ForwardReachable cs roles os) :
    (activePickupCodes os).Nodup := by
  induction h with
  | empty => exact List.nodup_nil
  | create os uid row draws os2 hr hins ih =>
    exact codes_nodup_insert roles uid row draws os os2 hins ih
  | update os uid oid s os2 n hr hguard hupd ih =>
    exact codes_nodup_update cs uid oid s os os2 n hupd hguard ih

/-- C1 witness: the amended invariant at the concrete two-step state in
which order 1 was created and then marked completed. -/
theorem C1_active_codes_nodup_witness :
    (activePickupCodes [⟨1, 20, 1, "completed", 50, some "000000", 0⟩]).Nodup :=
  C1_active_codes_nodup demoCanteens demoRoles
    [⟨1, 20, 1, "completed", 50, some "000000", 0⟩]
    (ForwardReachable.update [⟨1, 20, 1, "pending", 50, some "000000", 0⟩] 10 1 "completed"
      [⟨1, 20, 1, "completed", 50, some "000000", 0⟩] 1
      (ForwardReachable.create [] 20 ⟨1, 20, 1, "pending", 50, none, 0⟩
        [(0 : Fin 1000000)] [⟨1, 20, 1, "pending", 50, some "000000", 0⟩]
        ForwardReachable.empty rfl)
      (by
        intro o ho hid howns hs
        rcases List.mem_singleton.mp ho with rfl
        cases hs)
      rfl)

lemma update_status_row_cases (cs : List Canteen) (uid oid : Nat) (s : String)
    (os os2 : List Order) (n : Nat)
    (h : updateOrderStatus cs uid oid s os = .ok (os2, n))
    (i : Nat) (h2 : i < os2.length) (h1 : i < os.length) :
    os2[i] = os[i] ∨
      (os[i].id = oid ∧ vendorOwnsCanteen cs uid os[i].canteen_id = true ∧
        os2[i] = { os[i] with status := s }) := by
  have hm := updateOrderStatus_ok cs uid oid s os os2 n h
  subst hm
  rw [List.getElem_map]
  by_cases hc : os[i].id = oid ∧ vendorOwnsCanteen cs uid os[i].canteen_id = true
  · exact .inr ⟨hc.1, hc.2, applyStatusRow_pos cs uid oid s _ hc⟩
  · exact .inl (applyStatusRow_neg cs uid oid s _ hc)

/-- C2 counterexample: nothing rejects a transition that skips a state.
The vendor-side update sets the status column unconditionally and the
orders_status_check constraint only restricts status to the three values,
so the owning vendor invoking markOrderCompleted on a pending order
succeeds (no error) and moves it directly from pending to completed,
contradicting both the no-skip rule and the claim that such an attempt is
rejected leaving the status unchanged.  (markOrderReady on this completed
state would likewise move it backward.) -/
theorem C2_counterexample :
    demoPending.status = "pending" ∧
    markOrderCompleted demoCanteens 10 1 [demoPending] =
      .ok ([⟨1, 20, 1, "completed", 50, some "000000", 0⟩], 1) ∧
    markOrderReady demoCanteens 10 1 [⟨1, 20, 1, "completed", 50, some "000000", 0⟩] =
      .ok ([⟨1, 20, 1, "ready", 50, some "000000", 0⟩], 1) :=
  ⟨rfl, rfl, rfl⟩

/-- C2 amended: the update operations impose no transition guard of their
own; the forward-only discipline holds exactly when the callers respect the
dashboard flow, which invokes markOrderReady only on orders listed as
pending and markOrderCompleted only on orders listed as ready.  Under that
calling discipline every row either keeps its status or moves forward one
step (pending to ready, respectively ready to completed). -/
theorem C2_ui_guarded_forward :
    (∀ (cs : List Canteen) (uid oid : Nat) (os os2 : List Order) (n : Nat),
      (∀ o ∈ os, o.id = oid → o.status = "pending") →
      markOrderReady cs uid oid os = .ok (os2, n) →
      ∀ i (h2 : i < os2.length) (h1 : i < os.length),
        os2[i].status = os[i].status ∨
          (os[i].status = "pending" ∧ os2[i].status = "ready")) ∧
    (∀ (cs : List Canteen) (uid oid : Nat) (os os2 : List Order) (n : Nat),
      (∀ o ∈ os, o.id = oid → o.status = "ready") →
      markOrderCompleted cs uid oid os = .ok (os2, n) →
      ∀ i (h2 : i < os2.length) (h1 : i < os.length),
        os2[i].status = os[i].status ∨
          (os[i].status = "ready" ∧ os2[i].status = "completed")) := by
  constructor
  · intro cs uid oid os os2 n hpre h i h2 h1
    rcases update_status_row_cases cs uid oid "ready" os os2 n h i h2 h1 with heq | ⟨hid, -, heq⟩
    · exact .inl (by rw [heq])
    · exact .inr ⟨hpre os[i] (List.getElem_mem h1) hid, by rw [heq]⟩
  · intro cs uid oid os os2 n hpre h i h2 h1
    rcases update_status_row_cases cs uid oid "completed" os os2 n h i h2 h1 with heq | ⟨hid, -, heq⟩
    · exact .inl (by rw [heq])
    · exact .inr ⟨hpre os[i] (List.getElem_mem h1) hid, by rw [heq]⟩

/-- C2 amended witness: both guarded transitions applied to singleton
stores. -/
theorem C2_ui_guarded_forward_witness :
    (([⟨1, 20, 1, "ready", 50, some "000000", 0⟩] : List Order)[0].status =
        ([demoPending] : List Order)[0].status ∨
      (([demoPending] : List Order)[0].status = "pending" ∧
        ([⟨1, 20, 1, "ready", 50, some "000000", 0⟩] : List Order)[0].status = "ready")) ∧
    (([⟨1, 20, 1, "completed", 50, some "000000", 0⟩] : List Order)[0].status =
        ([⟨1, 20, 1, "ready", 50, some "000000", 0⟩] : List Order)[0].status ∨
      (([⟨1, 20, 1, "ready", 50, some "000000", 0⟩] : List Order)[0].status = "ready" ∧
        ([⟨1, 20, 1, "completed", 50, some "000000", 0⟩] : List Order)[0].status = "completed")) :=
  ⟨C2_ui_guarded_forward.1 demoCanteens 10 1 [demoPending]
      [⟨1, 20, 1, "ready", 50, some "000000", 0⟩] 1
      (by intro o ho hid; rcases List.mem_singleton.mp ho with rfl; rfl) rfl
      0 (by decide) (by decide),
   C2_ui_guarded_forward.2 demoCanteens 10 1 [⟨1, 20, 1, "ready", 50, some "000000", 0⟩]
      [⟨1, 20, 1, "completed", 50, some "000000", 0⟩] 1
      (by intro o ho hid; rcases List.mem_singleton.mp ho with rfl; rfl) rfl
      0 (by decide) (by decide)⟩

/-- C3 counterexample: a status update by an actor who does not own the
canteen of the order is not rejected with an authorization failure.  The
vendor-update policy has only a USING clause, so the non-matching row is
silently excluded from the update: user 99, who owns no canteen, invokes
markOrderReady and receives a success result with zero affected rows and
the table unchanged — a silent no-op, exactly what the claim rules out
(the status-unchanged half of the claim does hold). -/
theorem C3_counterexample :
    vendorOwnsCanteen demoCanteens 99 1 = false ∧
    markOrderReady demoCanteens 99 1 [demoPending] = .ok ([demoPending], 0) :=
  ⟨rfl, rfl⟩

/-- C3 amended: an update attempt by an actor who owns no canteen matching
any targeted order succeeds with zero affected rows and leaves the table
(and hence every status) unchanged — a silent no-op rather than an
authorization failure; an update by the owning vendor does take effect on
the matching rows. -/
theorem C3_unauthorized_update_noop :
    (∀ (cs : List Canteen) (uid oid : Nat) (s : String) (os : List Order),
      orders_status_check s = true →
      (∀ o ∈ os, o.id = oid → vendorOwnsCanteen cs uid o.canteen_id = false) →
      updateOrderStatus cs uid oid s os = .ok (os, 0)) ∧
    (∀ (cs : List Canteen) (uid oid : Nat) (s : String) (os os2 : List Order) (n : Nat),
      updateOrderStatus cs uid oid s os = .ok (os2, n) →
      ∀ i (h2 : i < os2.length) (h1 : i < os.length),
        os[i].id = oid → vendorOwnsCanteen cs uid os[i].canteen_id = true →
        os2[i].status = s) := by
  constructor
  · intro cs uid oid s os hs hown
    rw [updateOrderStatus_eq_ok cs uid oid s os hs]
    have hmap : os.map (applyStatusRow cs uid oid s) = os := by
      have := List.map_congr_left fun o ho =>
        applyStatusRow_neg cs uid oid s o (by
          rintro ⟨hid, howns⟩
          rw [hown o ho hid] at howns
          cases howns)
      simpa using this
    have hfil : (os.filter fun o => decide (o.id = oid) && vendorOwnsCanteen cs uid o.canteen_id) = [] := by
      rw [List.filter_eq_nil_iff]
      intro o ho
      rw [Bool.not_eq_true, Bool.and_eq_false_iff]
      by_cases hid : o.id = oid
      · exact .inr (hown o ho hid)
      · exact .inl (by rw [decide_eq_false hid])
    rw [hmap, hfil]
    rfl
  · intro cs uid oid s os os2 n h i h2 h1 hid howns
    have hm := updateOrderStatus_ok cs uid oid s os os2 n h
    subst hm
    rw [List.getElem_map, applyStatusRow_pos cs uid oid s _ ⟨hid, howns⟩]

/-- C3 amended witness: the non-owner 99 gets a success result with zero
rows and an unchanged store; the owning vendor 10 really updates the row. -/
theorem C3_unauthorized_update_noop_witness :
    updateOrderStatus demoCanteens 99 1 "ready" [demoPending] = .ok ([demoPending], 0) ∧
    ([⟨1, 20, 1, "ready", 50, some "000000", 0⟩] : List Order)[0].status = "ready" :=
  ⟨C3_unauthorized_update_noop.1 demoCanteens 99 1 "ready" [demoPending] rfl
      (by intro o ho hid; rcases List.mem_singleton.mp ho with rfl; rfl),
   C3_unauthorized_update_noop.2 demoCanteens 10 1 "ready" [demoPending]
      [⟨1, 20, 1, "ready", 50, some "000000", 0⟩] 1 rfl
      0 (by decide) (by decide) rfl rfl⟩

/-- C5: every order successfully placed through placeOrder appends exactly
one order row whose total_amount is the sum over cart entries of price
times quantity, whose status is "pending" and whose pickup code is a
6-digit string, together with one order_items row per cart entry (carrying
the order id, menu-item id, quantity and order-time price). -/
theorem C5_placeOrder_total (uid canteenId : Nat) (cart : List CartItem)
    (roles : List UserRole) (newOrderId stamp : Nat) (draws : List (Fin 1000000))
    (os os2 : List Order) (items : List OrderItem)
    (h : placeOrder (some uid) canteenId cart roles newOrderId stamp draws os =
      some (.ok (os2, items))) :
    ∃ code : String,
      os2 = os ++ [⟨newOrderId, uid, canteenId, "pending",
        (cart.map fun i => i.price * (i.quantity : Rat)).sum, some code, stamp⟩] ∧
      code.length = 6 ∧ (∀ c ∈ code.data, c.isDigit = true) ∧
      items = cart.map (fun i => (⟨newOrderId, i.id, i.quantity, i.price⟩ : OrderItem)) ∧
      items.length = cart.length := by
  unfold placeOrder at h
  dsimp only at h
  by_cases hc : cart.isEmpty = true
  · rw [if_pos hc] at h
    cases h
  · rw [if_neg hc] at h
    cases hins : insertOrder roles uid
        ⟨newOrderId, uid, canteenId, "pending", totalAmount cart, none, stamp⟩ draws os with
    | none =>
      rw [hins] at h
      cases h
    | some r =>
      rw [hins] at h
      cases r with
      | error e =>
        injection h with h2
        cases h2
      | ok os3 =>
        injection h with h2
        injection h2 with h3
        injection h3 with h4 h5
        subst h4
        subst h5
        rcases insertOrder_ok roles uid _ draws os os3 hins with ⟨code, hg, heq, -, -⟩
        subst heq
        rcases generate_pickup_code_spec os draws code hg with ⟨-, d, rfl⟩
        refine ⟨draw_code d, ?_, draw_code_length d, fun c hc2 => draw_code_isDigit d c hc2,
          rfl, List.length_map cart _⟩
        rw [← totalAmount_eq]

/-- The claimed two-item scenario: 2 units of item A at 50 and 1 unit of
item B at 30. -/
def demoCart : List CartItem :=
  [⟨101, "A", none, 50, true, 2⟩, ⟨102, "B", none, 30, true, 1⟩]

/-- C5 witness: the scenario order totals 130, is created pending with the
6-digit code 123456, and produces 2 order_items rows. -/
theorem C5_witness :
    totalAmount demoCart = 130 ∧
    (∃ code : String,
      ([⟨7, 20, 1, "pending", totalAmount demoCart, some "123456", 5⟩] : List Order) =
        [] ++ [⟨7, 20, 1, "pending",
          (demoCart.map fun i => i.price * (i.quantity : Rat)).sum, some code, 5⟩] ∧
      code.length = 6 ∧ (∀ c ∈ code.data, c.isDigit = true) ∧
      ([⟨7, 101, 2, 50⟩, ⟨7, 102, 1, 30⟩] : List OrderItem) =
        demoCart.map (fun i => (⟨7, i.id, i.quantity, i.price⟩ : OrderItem)) ∧
      ([⟨7, 101, 2, 50⟩, ⟨7, 102, 1, 30⟩] : List OrderItem).length = demoCart.length) :=
  ⟨by norm_num [totalAmount, demoCart],
   C5_placeOrder_total 20 1 demoCart demoRoles 7 5 [(123456 : Fin 1000000)] []
     [⟨7, 20, 1, "pending", totalAmount demoCart, some "123456", 5⟩]
     [⟨7, 101, 2, 50⟩, ⟨7, 102, 1, 30⟩] rfl⟩

/-- C6: an order insertion succeeds only when the acting user is the
order's student and holds the student role (the WITH CHECK clause of the
"Students can create orders" policy together with has_role); when the
generator has produced a code but the actor fails that check — in
particular when creating an order for another student identity — the
insert is rejected with a row-level-security violation and no row is
produced. -/
theorem C6_create_order_policy :
    (∀ (roles : List UserRole) (uid : Nat) (row : Order) (draws : List (Fin 1000000))
      (os os2 : List Order),
      insertOrder roles uid row draws os = some (.ok os2) →
      uid = row.student_id ∧ has_role roles uid "student" = true) ∧
    (∀ (roles : List UserRole) (uid : Nat) (row : Order) (draws : List (Fin 1000000))
      (os : List Order) (code : String),
      generate_pickup_code os draws = some code →
      ¬ (uid = row.student_id ∧ has_role roles uid "student" = true) →
      insertOrder roles uid row draws os = some (.error .rlsViolation)) := by
  constructor
  · intro roles uid row draws os os2 h
    rcases insertOrder_ok roles uid row draws os os2 h with ⟨code, -, -, hpol, -⟩
    unfold studentsCanCreateOrder at hpol
    rw [Bool.and_eq_true, beq_iff_eq] at hpol
    exact hpol
  · intro roles uid row draws os code hg hneg
    have hpol : studentsCanCreateOrder roles uid { row with pickup_code := some code } = false := by
      rw [Bool.eq_false_iff]
      intro ht
      unfold studentsCanCreateOrder at ht
      rw [Bool.and_eq_true, beq_iff_eq] at ht
      exact hneg ht
    unfold insertOrder
    rw [hg]
    dsimp only
    rw [if_pos hpol]

/-- C6 witness: student 20 creates their own order successfully, and an
attempt by user 10 (a vendor, not the order's student) to insert an order
under student 20's identity is rejected. -/
theorem C6_witness :
    ((20 : Nat) = demoPending.student_id ∧ has_role demoRoles 20 "student" = true) ∧
    insertOrder demoRoles 10 ⟨3, 20, 1, "pending", 50, none, 2⟩ [(0 : Fin 1000000)] [] =
      some (.error .rlsViolation) :=
  ⟨C6_create_order_policy.1 demoRoles 20 ⟨1, 20, 1, "pending", 50, none, 0⟩
      [(0 : Fin 1000000)] [] [demoPending] rfl,
   C6_create_order_policy.2 demoRoles 10 ⟨3, 20, 1, "pending", 50, none, 2⟩
      [(0 : Fin 1000000)] [] "000000" rfl (by
        rintro ⟨h10, -⟩
        cases h10)⟩

/-- C7: a status update (markOrderReady and markOrderCompleted both go
through this one operation) changes only the status column: the table keeps
its length and every row keeps its id, student_id, canteen_id,
total_amount, pickup_code and created_at — in particular the pickup code is
retained through both the ready and the completed transition. -/
theorem C7_update_frame (cs : List Canteen) (uid oid : Nat) (s : String)
    (os os2 : List Order) (n : Nat)
    (h : updateOrderStatus cs uid oid s os = .ok (os2, n)) :
    os2.length = os.length ∧
    ∀ i (h2 : i < os2.length) (h1 : i < os.length),
      os2[i].id = os[i].id ∧ os2[i].student_id = os[i].student_id ∧
      os2[i].canteen_id = os[i].canteen_id ∧ os2[i].total_amount = os[i].total_amount ∧
      os2[i].pickup_code = os[i].pickup_code ∧ os2[i].created_at = os[i].created_at := by
  have hm := updateOrderStatus_ok cs uid oid s os os2 n h
  subst hm
  refine ⟨List.length_map os _, ?_⟩
  intro i h2 h1
  rw [List.getElem_map]
  exact applyStatusRow_frame cs uid oid s _

/-- C7 witness: marking the demo pending order completed keeps every field
except status, including the pickup code. -/
theorem C7_witness :
    ([⟨1, 20, 1, "completed", 50, some "000000", 0⟩] : List Order).length =
      ([demoPending] : List Order).length ∧
    (([⟨1, 20, 1, "completed", 50, some "000000", 0⟩] : List Order)[0].id =
        ([demoPending] : List Order)[0].id ∧
      ([⟨1, 20, 1, "completed", 50, some "000000", 0⟩] : List Order)[0].student_id =
        ([demoPending] : List Order)[0].student_id ∧
      ([⟨1, 20, 1, "completed", 50, some "000000", 0⟩] : List Order)[0].canteen_id =
        ([demoPending] : List Order)[0].canteen_id ∧
      ([⟨1, 20, 1, "completed", 50, some "000000", 0⟩] : List Order)[0].total_amount =
        ([demoPending] : List Order)[0].total_amount ∧
      ([⟨1, 20, 1, "completed", 50, some "000000", 0⟩] : List Order)[0].pickup_code =
        ([demoPending] : List Order)[0].pickup_code ∧
      ([⟨1, 20, 1, "completed", 50, some "000000", 0⟩] : List Order)[0].created_at =
        ([demoPending] : List Order)[0].created_at) := by
  have h := C7_update_frame demoCanteens 10 1 "completed" [demoPending]
    [⟨1, 20, 1, "completed", 50, some "000000", 0⟩] 1 rfl
  exact ⟨h.1, h.2 0 (by decide) (by decide)⟩

/-- C8: re-running markOrderReady against an order that is already ready
(the store update setting status to "ready") succeeds without error and
returns the table unchanged — the same-state transition is a no-op
reporting success, with the usual affected-row count. -/
theorem C8_ready_idempotent (cs : List Canteen) (uid oid : Nat) (os : List Order)
    (h : ∀ o ∈ os, o.id = oid → o.status = "ready") :
    markOrderReady cs uid oid os =
      .ok (os, (os.filter fun o =>
        decide (o.id = oid) && vendorOwnsCanteen cs uid o.canteen_id).length) := by
  show updateOrderStatus cs uid oid "ready" os = _
  rw [updateOrderStatus_eq_ok cs uid oid "ready" os (by decide)]
  have hrow : ∀ o ∈ os, applyStatusRow cs uid oid "ready" o = o := by
    intro o ho
    by_cases hc : o.id = oid ∧ vendorOwnsCanteen cs uid o.canteen_id = true
    · rw [applyStatusRow_pos cs uid oid "ready" o hc]
      exact status_update_self o "ready" (h o ho hc.1)
    · exact applyStatusRow_neg cs uid oid "ready" o hc
  have hmap : os.map (applyStatusRow cs uid oid "ready") = os := by
    have := List.map_congr_left hrow
    simpa using this
  rw [hmap]

/-- C8 witness: the owning vendor re-marks the already-ready demo order as
ready; the call reports success and the row is fully unchanged. -/
theorem C8_witness :
    markOrderReady demoCanteens 10 1 [⟨1, 20, 1, "ready", 50, some "000000", 0⟩] =
      .ok ([⟨1, 20, 1, "ready", 50, some "000000", 0⟩], 1) :=
  C8_ready_idempotent demoCanteens 10 1 [⟨1, 20, 1, "ready", 50, some "000000", 0⟩] (by
    intro o ho hid
    rcases List.mem_singleton.mp ho with rfl
    rfl)

/-- C10: after any sequence of cart interactions starting from the empty
cart, the cart holds at most one entry per menu-item id and every quantity
is positive; moreover addToCart on an id already present rewrites the
matching entry to quantity + 1 instead of appending a duplicate (the length
is unchanged), and removeFromCart on the entry whose quantity is 1 drops
the entry entirely (no entry with that id remains). -/
theorem C10_cart_invariant :
    (∀ ops : List CartOp, CartInv (runCartOps ops)) ∧
    (∀ (item : MenuItem) (cart : List CartItem) (e : CartItem),
      cart.find? (fun i => i.id == item.id) = some e →
      addToCart item cart =
        cart.map (fun i => if i.id = item.id then { i with quantity := i.quantity + 1 } else i) ∧
      (addToCart item cart).length = cart.length) ∧
    (∀ (tid : Nat) (cart : List CartItem) (i : CartItem),
      CartInv cart → i ∈ cart → i.id = tid → i.quantity = 1 →
      removeFromCart tid cart = cart.filter (fun j => !(j.id == tid)) ∧
      ∀ j ∈ removeFromCart tid cart, j.id ≠ tid) := by
  refine ⟨?_, ?_, ?_⟩
  · intro ops
    exact cartInv_foldl ops [] ⟨List.nodup_nil, by intro i hi; cases hi⟩
  · intro item cart e hf
    constructor
    · unfold addToCart
      rw [hf]
    · unfold addToCart
      rw [hf]
      exact List.length_map cart _
  · intro tid cart i hinv hi hid hq
    have hfind : ∃ e, cart.find? (fun j => j.id == tid) = some e := by
      have : (cart.find? fun j => j.id == tid).isSome = true :=
        List.find?_isSome.mpr ⟨i, hi, by rw [beq_iff_eq]; exact hid⟩
      cases hfe : cart.find? fun j => j.id == tid with
      | none => rw [hfe] at this; cases this
      | some e => exact ⟨e, rfl⟩
    rcases hfind with ⟨e, hfe⟩
    have he : e ∈ cart := List.mem_of_find?_eq_some hfe
    have heid : e.id = tid := by
      have := List.find?_some hfe
      rwa [beq_iff_eq] at this
    have hei : i = e := List.inj_on_of_nodup_map hinv.1 hi he (by rw [hid, heid])
    have heq1 : e.quantity = 1 := by rw [← hei]; exact hq
    have hrm : removeFromCart tid cart = cart.filter fun j => !(j.id == tid) := by
      unfold removeFromCart
      rw [hfe]
      dsimp only
      rw [if_neg]
      omega
    refine ⟨hrm, ?_⟩
    intro j hj
    rw [hrm] at hj
    have := List.of_mem_filter hj
    rw [Bool.not_eq_eq_eq_not] at this
    intro hjid
    rw [← beq_iff_eq] at hjid
    rw [hjid] at this
    cases this

/-- C10 witness: adding item A twice then once more after B, removing B at
quantity 1: the invariant holds on the resulting cart, the second add of A
increments rather than duplicates, and removing B at quantity 1 deletes its
entry. -/
theorem C10_witness :
    CartInv (runCartOps [.add ⟨101, "A", none, 50, true⟩, .add ⟨102, "B", none, 30, true⟩,
      .add ⟨101, "A", none, 50, true⟩]) ∧
    (addToCart ⟨101, "A", none, 50, true⟩ [⟨101, "A", none, 50, true, 1⟩] =
        [⟨101, "A", none, 50, true, 2⟩] ∧
      (addToCart ⟨101, "A", none, 50, true⟩ [⟨101, "A", none, 50, true, 1⟩]).length = 1) ∧
    (removeFromCart 102 [⟨101, "A", none, 50, true, 2⟩, ⟨102, "B", none, 30, true, 1⟩] =
        [⟨101, "A", none, 50, true, 2⟩] ∧
      ∀ j ∈ removeFromCart 102 [⟨101, "A", none, 50, true, 2⟩, ⟨102, "B", none, 30, true, 1⟩],
        j.id ≠ 102) := by
  refine ⟨C10_cart_invariant.1 _, ?_, ?_⟩
  · have h := C10_cart_invariant.2.1 ⟨101, "A", none, 50, true⟩
      [⟨101, "A", none, 50, true, 1⟩] ⟨101, "A", none, 50, true, 1⟩ rfl
    exact ⟨by rw [h.1]; rfl, h.2⟩
  · have h := C10_cart_invariant.2.2 102
      [⟨101, "A", none, 50, true, 2⟩, ⟨102, "B", none, 30, true, 1⟩]
      ⟨102, "B", none, 30, true, 1⟩
      ⟨by decide, by intro i hi; fin_cases hi <;> decide⟩
      (by decide) rfl rfl
    exact ⟨by rw [h.1]; rfl, h.2⟩

end CanteenGo
